import Mathlib

/-!
Verification of the egame-football repository's simulation core.

The repository holds three near-duplicate variants of the same game core:
* `VariantA` — the first game in `src/app/page.tsx` (header "tackle-sound"),
* `VariantB` — the second game in `src/app/page.tsx` (header "resize reshape"),
* `VariantC` — the game in `src/unnamed/part_000` (header "v.01").

Randomness is made explicit: every call of `Math.random()` / `randomInt`
becomes a parameter of the embedded function (a `Bool` for a branch test on a
uniform draw, a `Nat` index for `randomInt(0, n-1)` picks, an `Int` offset for
`randomInt(-100, 100)`).
-/

namespace EgameFootball

/-- `Position` record `{row, col}` shared by all variants. Coordinates are
JavaScript numbers used only at integer values, embedded as `Int`. -/
structure Position where
  row : Int
  col : Int
deriving DecidableEq, Repr

/-- `GameStatus` union shared by all variants. -/
inductive GameStatus where
  | PLAYING
  | TOUCHDOWN
  | TACKLED
deriving DecidableEq, Repr

/-- `positionsEqual` from the source (identical in all three variants). -/
def positionsEqual (a b : Position) : Bool :=
  a.row == b.row && a.col == b.col

/-- `clamp` from the source (identical in all three variants):
`Math.max(min, Math.min(max, value))`. -/
def clamp (value mn mx : Int) : Int :=
  max mn (min mx value)

/-- Manhattan distance between two positions (used to state step-size
invariants about the defender policy). -/
def manhattan (a b : Position) : Nat :=
  (a.row - b.row).natAbs + (a.col - b.col).natAbs

/-- In-bounds test for a grid with `rows` rows and `cols` columns. -/
def inBounds (rows cols : Int) (p : Position) : Bool :=
  decide (0 ≤ p.row) && decide (p.row < rows) && decide (0 ≤ p.col) && decide (p.col < cols)

/-- The spec's invariant "no two distinct defender indices hold equal
Positions", stated over the ordered defender sequence. -/
def DefendersDistinct (l : List Position) : Prop :=
  ∀ (i j : Nat) (hi : i < l.length) (hj : j < l.length), i ≠ j → l[i] ≠ l[j]

/-- The rejection-sampling loop body of `generateDefenders`, shared verbatim by
`page.tsx` (both games) and `part_000`: consume random draws until
`numDefenders` positions have been accepted, rejecting a draw that collides
with the player or an already-chosen defender. -/
def generateDefendersGo (numDefenders : Nat) (player : Position) :
    List Position → List Position → List Position
  | [], acc => acc
  | c :: rest, acc =>
    if acc.length = numDefenders then acc
    else if positionsEqual c player || acc.any (fun d => positionsEqual d c) then
      generateDefendersGo numDefenders player rest acc
    else
      generateDefendersGo numDefenders player rest (acc ++ [c])

/-- `generateDefenders` with the stream of random candidate draws made
explicit (each draw is a `{row: randomInt(0, ROWS-1), col: randomInt(3, COLS-1)}`
position). -/
def generateDefendersCore (numDefenders : Nat) (player : Position)
    (draws : List Position) : List Position :=
  generateDefendersGo numDefenders player draws []

/-- Modelled from the spec (claims C1/C3/C8 compare the code against it): the
pursuit candidate list as the spec describes it — one unclamped step along each
axis with a nonzero delta toward the player, the axis with the larger absolute
delta first, ties broken row-first. -/
def specPursuitCandidates (current player : Position) : List Position :=
  let rowDiff := player.row - current.row
  let colDiff := player.col - current.col
  let verticalDir : Int := if rowDiff = 0 then 0 else if 0 < rowDiff then 1 else -1
  let horizontalDir : Int := if colDiff = 0 then 0 else if 0 < colDiff then 1 else -1
  let vCand : List Position :=
    if verticalDir ≠ 0 then [⟨current.row + verticalDir, current.col⟩] else []
  let hCand : List Position :=
    if horizontalDir ≠ 0 then [⟨current.row, current.col + horizontalDir⟩] else []
  if colDiff.natAbs ≤ rowDiff.natAbs then vCand ++ hCand else hCand ++ vCand

/-- Modelled from the spec (claim C8 compares the code against it): the jitter
candidate set as the spec describes it — the four cardinal neighbors of the
current cell, filtered to those in bounds. -/
def specJitterCandidates (rows cols : Int) (current : Position) : List Position :=
  [ ⟨current.row - 1, current.col⟩, ⟨current.row + 1, current.col⟩,
    ⟨current.row, current.col - 1⟩, ⟨current.row, current.col + 1⟩ ].filter
    (inBounds rows cols)

namespace VariantA

def ROWS : Int := 5
def COLS : Int := 12
def NUM_DEFENDERS : Nat := 6

def PLAYER_START : Position := ⟨3, 1⟩

/-- `generateDefenders` of the first `page.tsx` game. -/
def generateDefenders (player : Position) (draws : List Position) : List Position :=
  generateDefendersCore NUM_DEFENDERS player draws

/-- `randomDefenderDelayMs` of the first `page.tsx` game:
`(Math.random() < 0.5 ? 1000 : 1500) + randomInt(-100, 100)`.
`coin` is true when the uniform draw is below 0.5; `offset` is the
`randomInt(-100, 100)` draw. -/
def randomDefenderDelayMs (coin : Bool) (offset : Int) : Int :=
  (if coin then 1000 else 1500) + offset

/-- `canMoveIntoCell`: the target cell is not occupied by a defender at a
different index. -/
def canMoveIntoCell (target : Position) (defenders : List Position)
    (selfIndex : Nat) : Bool :=
  ! defenders.enum.any (fun p => p.1 != selfIndex && positionsEqual p.2 target)

/-- The pursuit candidate list built in the `chaseBias < 0.8` branch of
`getNextDefenderPosition`: clamped one-cell steps toward the player, the
vertical candidate first when `|rowDiff| >= |colDiff|`. -/
def chaseCandidates (current player : Position) : List Position :=
  let rowDiff := player.row - current.row
  let colDiff := player.col - current.col
  let verticalDir : Int := if rowDiff = 0 then 0 else if 0 < rowDiff then 1 else -1
  let horizontalDir : Int := if colDiff = 0 then 0 else if 0 < colDiff then 1 else -1
  let vCand : List Position :=
    if verticalDir ≠ 0 then
      [⟨clamp (current.row + verticalDir) 0 (ROWS - 1), current.col⟩]
    else []
  let hCand : List Position :=
    if horizontalDir ≠ 0 then
      [⟨current.row, clamp (current.col + horizontalDir) 0 (COLS - 1)⟩]
    else []
  if colDiff.natAbs ≤ rowDiff.natAbs then vCand ++ hCand else hCand ++ vCand

/-- The jitter candidate list built in the `else` branch of
`getNextDefenderPosition`: the four cardinal neighbors, each clamped into the
grid. -/
def jitterCandidates (current : Position) : List Position :=
  ([ ⟨current.row - 1, current.col⟩, ⟨current.row + 1, current.col⟩,
     ⟨current.row, current.col - 1⟩, ⟨current.row, current.col + 1⟩ ] : List Position).map
    (fun d => ⟨clamp d.row 0 (ROWS - 1), clamp d.col 0 (COLS - 1)⟩)

/-- `getNextDefenderPosition` of the first `page.tsx` game. `chase` is true
when `chaseBias < 0.8`; `pick` is the `randomInt(0, validCandidates.length-1)`
draw (legal draws satisfy `pick < validCandidates.length`). -/
def getNextDefenderPosition (defender player : Position) (defenders : List Position)
    (index : Nat) (chase : Bool) (pick : Nat) : Position :=
  let current := defender
  let candidates := if chase then chaseCandidates current player else jitterCandidates current
  let validCandidates := candidates.filter (fun c => canMoveIntoCell c defenders index)
  if validCandidates.isEmpty then current
  else validCandidates.getD pick current

/-- The `setPlayer` update of the keyboard handler of the first `page.tsx`
game, restricted to its game-core effect: the clamped candidate position and
the resulting status (touchdown checked first with an early return, then the
defender collision). -/
def movePlayer (prev : Position) (dRow dCol : Int) (defenders : List Position) :
    Position × GameStatus :=
  let next : Position :=
    ⟨clamp (prev.row + dRow) 0 (ROWS - 1), clamp (prev.col + dCol) 0 (COLS - 1)⟩
  if next.col = COLS - 1 then (next, GameStatus.TOUCHDOWN)
  else if defenders.any (fun d => positionsEqual d next) then (next, GameStatus.TACKLED)
  else (next, GameStatus.PLAYING)

/-- The shared session state read and written by the keyboard handler and the
defender wake callbacks. -/
structure SessionState where
  player : Position
  defenders : List Position
  status : GameStatus
deriving DecidableEq, Repr

/-- The `setTimeout` callback body of `scheduleDefenderMove` of the first
`page.tsx` game, acting on a session state. The `Bool` result records whether
the callback reschedules itself (`scheduleDefenderMove(index)` runs again). -/
def defenderWake (s : SessionState) (index : Nat) (chase : Bool) (pick : Nat) :
    SessionState × Bool :=
  if s.status ≠ GameStatus.PLAYING then (s, false)
  else
    match s.defenders.get? index with
    | none => (s, true)
    | some currentDef =>
      let nextPos := getNextDefenderPosition currentDef s.player s.defenders index chase pick
      let moved := s.defenders.set index nextPos
      if positionsEqual nextPos s.player then
        ({ player := s.player, defenders := moved, status := GameStatus.TACKLED }, false)
      else
        ({ player := s.player, defenders := moved, status := GameStatus.PLAYING }, true)

/-- The keyboard handler of the first `page.tsx` game for an arrow key: a
no-op unless the status is PLAYING, otherwise the `movePlayer` update. -/
def handleArrowKey (s : SessionState) (dRow dCol : Int) : SessionState :=
  if s.status ≠ GameStatus.PLAYING then s
  else
    let r := movePlayer s.player dRow dCol s.defenders
    { player := r.1, defenders := s.defenders, status := r.2 }

/-- The session states of the first `page.tsx` game reachable from `initGame`
by any interleaving of arrow-key presses and defender wakes (with arbitrary
random draws). -/
inductive Reachable : SessionState → Prop where
  | init (draws : List Position) :
      Reachable ⟨PLAYER_START, generateDefenders PLAYER_START draws, GameStatus.PLAYING⟩
  | key (s : SessionState) (dRow dCol : Int) (h : Reachable s) :
      Reachable (handleArrowKey s dRow dCol)
  | wake (s : SessionState) (index : Nat) (chase : Bool) (pick : Nat) (h : Reachable s) :
      Reachable (defenderWake s index chase pick).1

end VariantA

namespace VariantB

def ROWS : Int := 5
def COLS : Int := 12
def NUM_DEFENDERS : Nat := 6

def PLAYER_START : Position := ⟨2, 1⟩

/-- `generateDefenders` of the second `page.tsx` game (same rejection
sampling loop as the first game). -/
def generateDefenders (player : Position) (draws : List Position) : List Position :=
  generateDefendersCore NUM_DEFENDERS player draws

/-- `randomDefenderDelayMs` of the second `page.tsx` game:
`Math.random() < 0.5 ? 1000 : 1500`. -/
def randomDefenderDelayMs (coin : Bool) : Int :=
  if coin then 1000 else 1500

/-- The `isOccupiedByDefender` helper inside `getNextDefenderPosition` of the
second `page.tsx` game. -/
def isOccupiedByDefender (allDefenders : List Position) (index : Nat)
    (row col : Int) : Bool :=
  allDefenders.enum.any (fun p => p.1 != index && p.2.row == row && p.2.col == col)

/-- The validity test of the candidate loop of the second game's
`getNextDefenderPosition`: in bounds and not occupied by a different
defender. -/
def validCell (allDefenders : List Position) (index : Nat) (c : Position) : Bool :=
  inBounds ROWS COLS c && ! isOccupiedByDefender allDefenders index c.row c.col

/-- The chase candidates of the second game's `getNextDefenderPosition`:
unclamped one-cell steps toward the player, the vertical candidate always
first. -/
def chaseCandidates (current playerPos : Position) : List Position :=
  let rowDiff := playerPos.row - current.row
  let colDiff := playerPos.col - current.col
  let verticalDir : Int := if rowDiff = 0 then 0 else if 0 < rowDiff then 1 else -1
  let horizontalDir : Int := if colDiff = 0 then 0 else if 0 < colDiff then 1 else -1
  (if verticalDir ≠ 0 then [(⟨current.row + verticalDir, current.col⟩ : Position)] else []) ++
  (if horizontalDir ≠ 0 then [(⟨current.row, current.col + horizontalDir⟩ : Position)] else [])

/-- The four jitter directions of the second game's `getNextDefenderPosition`. -/
def jitterDirs : List (Int × Int) :=
  [(-1, 0), (1, 0), (0, -1), (0, 1)]

/-- `getNextDefenderPosition` of the second `page.tsx` game. `chase` is true
when `Math.random() < 0.8`; `jitterPick` is the `randomInt(0, 3)` draw used
only in the jitter branch (legal draws satisfy `jitterPick < 4`). The
candidate list ends with the current position as a fallback and the first
valid candidate is returned. -/
def getNextDefenderPosition (current playerPos : Position) (allDefenders : List Position)
    (index : Nat) (chase : Bool) (jitterPick : Nat) : Position :=
  let base :=
    if chase then chaseCandidates current playerPos
    else
      let dir := jitterDirs.getD jitterPick (-1, 0)
      [(⟨current.row + dir.1, current.col + dir.2⟩ : Position)]
  let candidates := base ++ [current]
  match candidates.find? (validCell allDefenders index) with
  | some c => c
  | none => current

/-- The `setPlayer` update of the keyboard handler of the second `page.tsx`
game. Unlike the first game, the touchdown branch does not return early: the
defender-collision check still runs afterwards and its `setStatus("TACKLED")`
overrides the touchdown. -/
def movePlayer (prev : Position) (dRow dCol : Int) (defenders : List Position) :
    Position × GameStatus :=
  let next : Position :=
    ⟨clamp (prev.row + dRow) 0 (ROWS - 1), clamp (prev.col + dCol) 0 (COLS - 1)⟩
  let afterTouchdown :=
    if next.col = COLS - 1 then GameStatus.TOUCHDOWN else GameStatus.PLAYING
  let finalStatus :=
    if defenders.any (fun d => positionsEqual d next) then GameStatus.TACKLED
    else afterTouchdown
  (next, finalStatus)

/-- Session state of the second `page.tsx` game. -/
structure SessionState where
  player : Position
  defenders : List Position
  status : GameStatus
deriving DecidableEq, Repr

/-- The `setTimeout` callback body of `scheduleDefenderMove` of the second
`page.tsx` game (same structure as the first game's). -/
def defenderWake (s : SessionState) (index : Nat) (chase : Bool) (jitterPick : Nat) :
    SessionState × Bool :=
  if s.status ≠ GameStatus.PLAYING then (s, false)
  else
    match s.defenders.get? index with
    | none => (s, true)
    | some currentDef =>
      let nextPos := getNextDefenderPosition currentDef s.player s.defenders index chase jitterPick
      let moved := s.defenders.set index nextPos
      if positionsEqual nextPos s.player then
        ({ player := s.player, defenders := moved, status := GameStatus.TACKLED }, false)
      else
        ({ player := s.player, defenders := moved, status := GameStatus.PLAYING }, true)

/-- The keyboard handler of the second `page.tsx` game for an arrow key. -/
def handleArrowKey (s : SessionState) (dRow dCol : Int) : SessionState :=
  if s.status ≠ GameStatus.PLAYING then s
  else
    let r := movePlayer s.player dRow dCol s.defenders
    { player := r.1, defenders := s.defenders, status := r.2 }

end VariantB

namespace VariantC

def ROWS : Int := 5
def COLS : Int := 10
def NUM_DEFENDERS : Nat := 6

/-- `generateDefenders` of `part_000` (same rejection sampling loop; the grid
has `COLS = 10` here, which only changes the range of the column draws). -/
def generateDefenders (player : Position) (draws : List Position) : List Position :=
  generateDefendersCore NUM_DEFENDERS player draws

/-- The `options` list of `stepDefenderTowardPlayer`: `Math.sign`-directed
clamped steps toward the player, the horizontal option pushed first. -/
def chaseOptions (defPos player : Position) : List Position :=
  let rowDir : Int :=
    if player.row - defPos.row = 0 then 0
    else if 0 < player.row - defPos.row then 1 else -1
  let colDir : Int :=
    if player.col - defPos.col = 0 then 0
    else if 0 < player.col - defPos.col then 1 else -1
  (if colDir ≠ 0 then [(⟨defPos.row, clamp (defPos.col + colDir) 0 (COLS - 1)⟩ : Position)] else []) ++
  (if rowDir ≠ 0 then [(⟨clamp (defPos.row + rowDir) 0 (ROWS - 1), defPos.col⟩ : Position)] else [])

/-- The `jitterChoices` list of `stepDefenderTowardPlayer`: the in-bounds
cardinal neighbors, collected left, right, up, down. -/
def jitterChoices (defPos : Position) : List Position :=
  (if 0 < defPos.col then [(⟨defPos.row, defPos.col - 1⟩ : Position)] else []) ++
  (if defPos.col < COLS - 1 then [(⟨defPos.row, defPos.col + 1⟩ : Position)] else []) ++
  (if 0 < defPos.row then [(⟨defPos.row - 1, defPos.col⟩ : Position)] else []) ++
  (if defPos.row < ROWS - 1 then [(⟨defPos.row + 1, defPos.col⟩ : Position)] else [])

/-- `stepDefenderTowardPlayer` of `part_000`. `jitter` is true when
`Math.random() < 0.2`; `jitterPick` and `optPick` are the `randomInt` draws
for the jitter-choice and chase-option picks (legal draws are below the
respective list lengths). Note: this variant consults neither the defender
set nor its own index — there is no occupancy filter. -/
def stepDefenderTowardPlayer (defPos player : Position) (jitter : Bool)
    (jitterPick optPick : Nat) : Position :=
  let options := chaseOptions defPos player
  let choices := jitterChoices defPos
  if jitter && !choices.isEmpty then choices.getD jitterPick defPos
  else if options.isEmpty then defPos
  else options.getD optPick defPos

/-- The per-tick defender update of `part_000`:
`prev.map(d => stepDefenderTowardPlayer(d, player))`, with one triple of
random draws per defender. -/
def stepAllDefenders (defs : List Position) (player : Position)
    (draws : List (Bool × Nat × Nat)) : List Position :=
  (defs.zip draws).map
    (fun p => stepDefenderTowardPlayer p.1 player p.2.1 p.2.2.1 p.2.2.2)

end VariantC

/-! ### Basic helper lemmas -/

theorem positionsEqual_iff {a b : Position} : positionsEqual a b = true ↔ a = b := by
  cases a; cases b
  simp [positionsEqual, Position.mk.injEq]

theorem positionsEqual_eq_false {a b : Position} : positionsEqual a b = false ↔ a ≠ b := by
  rw [← Bool.not_eq_true, not_iff_not, positionsEqual_iff]

theorem manhattan_eq_zero {a b : Position} : manhattan a b = 0 ↔ a = b := by
  cases a; cases b
  simp only [manhattan, Position.mk.injEq]
  omega

theorem eq_or_manhattan_one {a b : Position} (h : manhattan a b ≤ 1) :
    a = b ∨ manhattan a b = 1 := by
  by_cases h0 : manhattan a b = 0
  · exact Or.inl (manhattan_eq_zero.mp h0)
  · exact Or.inr (by omega)

theorem defendersDistinct_of_nodup {l : List Position} (h : l.Nodup) :
    DefendersDistinct l := by
  intro i j hi hj hij heq
  have hfin : (⟨i, hi⟩ : Fin l.length) = ⟨j, hj⟩ :=
    List.nodup_iff_injective_get.mp h
      (show l.get ⟨i, hi⟩ = l.get ⟨j, hj⟩ by simpa [List.get_eq_getElem] using heq)
  exact hij (congrArg Fin.val hfin)

namespace VariantA

theorem canMoveIntoCell_spec {target : Position} {defs : List Position} {index : Nat}
    (h : canMoveIntoCell target defs index = true) :
    ∀ (j : Nat) (hj : j < defs.length), j ≠ index → defs[j] ≠ target := by
  intro j hj hne heq
  rw [canMoveIntoCell, Bool.not_eq_true', List.any_eq_false] at h
  have hmem : (j, defs[j]) ∈ defs.enum := by
    rw [List.mk_mem_enum_iff_getElem?]
    exact List.getElem?_eq_getElem hj
  apply h _ hmem
  simp only [Bool.and_eq_true, bne_iff_ne, ne_eq]
  exact ⟨by simpa using hne, positionsEqual_iff.mpr heq⟩

theorem getNext_eq_of_empty {defender player : Position} {defs : List Position}
    {index : Nat} {chase : Bool} (pick : Nat)
    (h : ((if chase then chaseCandidates defender player else jitterCandidates defender).filter
        (fun c => canMoveIntoCell c defs index)) = []) :
    getNextDefenderPosition defender player defs index chase pick = defender := by
  simp [getNextDefenderPosition, h]

theorem getNext_eq_get {defender player : Position} {defs : List Position}
    {index : Nat} {chase : Bool} {pick : Nat}
    (h : pick < ((if chase then chaseCandidates defender player else jitterCandidates defender).filter
        (fun c => canMoveIntoCell c defs index)).length) :
    getNextDefenderPosition defender player defs index chase pick =
      ((if chase then chaseCandidates defender player else jitterCandidates defender).filter
        (fun c => canMoveIntoCell c defs index))[pick] := by
  have hne : ((if chase then chaseCandidates defender player else jitterCandidates defender).filter
      (fun c => canMoveIntoCell c defs index)).isEmpty = false := by
    rcases hl : (if chase then chaseCandidates defender player else jitterCandidates defender).filter
        (fun c => canMoveIntoCell c defs index) with _ | ⟨x, xs⟩
    · rw [hl] at h; simp at h
    · rfl
  simp only [getNextDefenderPosition, hne, Bool.false_eq_true, if_false,
    List.getD_eq_getElem _ _ h]

theorem getNext_cases (defender player : Position) (defs : List Position)
    (index : Nat) (chase : Bool) (pick : Nat) :
    getNextDefenderPosition defender player defs index chase pick = defender ∨
      (getNextDefenderPosition defender player defs index chase pick ∈
          (if chase then chaseCandidates defender player else jitterCandidates defender) ∧
        canMoveIntoCell (getNextDefenderPosition defender player defs index chase pick)
          defs index = true) := by
  by_cases hp : pick < ((if chase then chaseCandidates defender player else jitterCandidates defender).filter
      (fun c => canMoveIntoCell c defs index)).length
  · right
    rw [getNext_eq_get hp]
    have hmem := List.getElem_mem hp
    rw [List.mem_filter] at hmem
    exact ⟨hmem.1, hmem.2⟩
  · left
    by_cases hl : ((if chase then chaseCandidates defender player else jitterCandidates defender).filter
        (fun c => canMoveIntoCell c defs index)) = []
    · exact getNext_eq_of_empty pick hl
    · have hne : ((if chase then chaseCandidates defender player else jitterCandidates defender).filter
          (fun c => canMoveIntoCell c defs index)).isEmpty = false := by
        rcases hll : (if chase then chaseCandidates defender player else jitterCandidates defender).filter
            (fun c => canMoveIntoCell c defs index) with _ | ⟨x, xs⟩
        · exact absurd hll hl
        · rfl
      simp only [getNextDefenderPosition, hne, Bool.false_eq_true, if_false]
      exact List.getD_eq_default _ _ (by omega)

end VariantA

namespace VariantB

theorem isOccupiedByDefender_spec {defs : List Position} {index : Nat} {row col : Int}
    (h : isOccupiedByDefender defs index row col = false) :
    ∀ (j : Nat) (hj : j < defs.length), j ≠ index → defs[j] ≠ (⟨row, col⟩ : Position) := by
  intro j hj hne heq
  rw [isOccupiedByDefender, List.any_eq_false] at h
  have hmem : (j, defs[j]) ∈ defs.enum := by
    rw [List.mk_mem_enum_iff_getElem?]
    exact List.getElem?_eq_getElem hj
  apply h _ hmem
  simp only [Bool.and_eq_true, bne_iff_ne, ne_eq, beq_iff_eq]
  exact ⟨⟨by simpa using hne, by rw [heq]⟩, by rw [heq]⟩

theorem find?_result_cases (cands : List Position) (cur : Position) (p : Position → Bool) :
    (match (cands ++ [cur]).find? p with | some c => c | none => cur) = cur ∨
      p (match (cands ++ [cur]).find? p with | some c => c | none => cur) = true := by
  split
  · rename_i c hc
    exact Or.inr (List.find?_some hc)
  · exact Or.inl rfl

theorem find?_result_mem (cands : List Position) (cur : Position) (p : Position → Bool) :
    (match (cands ++ [cur]).find? p with | some c => c | none => cur) = cur ∨
      (match (cands ++ [cur]).find? p with | some c => c | none => cur) ∈ cands := by
  split
  · rename_i c hc
    rcases List.mem_append.mp (List.mem_of_find?_eq_some hc) with h | h
    · exact Or.inr h
    · exact Or.inl (by simpa using h)
  · exact Or.inl rfl

theorem getNextB_cases (current playerPos : Position) (defs : List Position)
    (index : Nat) (chase : Bool) (jitterPick : Nat) :
    getNextDefenderPosition current playerPos defs index chase jitterPick = current ∨
      validCell defs index (getNextDefenderPosition current playerPos defs index chase jitterPick) = true :=
  find?_result_cases
    (if chase then chaseCandidates current playerPos
      else [(⟨current.row + (jitterDirs.getD jitterPick (-1, 0)).1,
              current.col + (jitterDirs.getD jitterPick (-1, 0)).2⟩ : Position)])
    current (validCell defs index)

theorem getNext_mem (current playerPos : Position) (defs : List Position)
    (index : Nat) (chase : Bool) (jitterPick : Nat) :
    getNextDefenderPosition current playerPos defs index chase jitterPick = current ∨
      getNextDefenderPosition current playerPos defs index chase jitterPick ∈
        (if chase then chaseCandidates current playerPos
          else [(⟨current.row + (jitterDirs.getD jitterPick (-1, 0)).1,
                  current.col + (jitterDirs.getD jitterPick (-1, 0)).2⟩ : Position)]) :=
  find?_result_mem
    (if chase then chaseCandidates current playerPos
      else [(⟨current.row + (jitterDirs.getD jitterPick (-1, 0)).1,
              current.col + (jitterDirs.getD jitterPick (-1, 0)).2⟩ : Position)])
    current (validCell defs index)

end VariantB

/-! ### Step-size lemmas for the defender policies -/

namespace VariantA

theorem chaseCandidates_manhattan_le {current player c : Position}
    (h0 : 0 ≤ current.row) (h1 : current.row < 5)
    (h2 : 0 ≤ current.col) (h3 : current.col < 12)
    (hc : c ∈ chaseCandidates current player) : manhattan c current ≤ 1 := by
  simp only [chaseCandidates, ROWS, COLS] at hc
  split_ifs at hc <;>
    simp only [List.mem_append, List.mem_singleton, List.mem_cons, List.not_mem_nil,
      or_false, false_or, List.nil_append, List.append_nil] at hc
  all_goals try rcases hc with rfl | rfl
  all_goals (simp only [manhattan, clamp]; omega)

theorem jitterCandidates_manhattan_le {current c : Position}
    (h0 : 0 ≤ current.row) (h1 : current.row < 5)
    (h2 : 0 ≤ current.col) (h3 : current.col < 12)
    (hc : c ∈ jitterCandidates current) : manhattan c current ≤ 1 := by
  simp only [jitterCandidates, ROWS, COLS, List.map_cons, List.map_nil, List.mem_cons,
    List.not_mem_nil, or_false] at hc
  rcases hc with rfl | rfl | rfl | rfl <;> (simp only [manhattan, clamp]; omega)

end VariantA

namespace VariantB

theorem chaseCandidates_manhattan {current playerPos c : Position}
    (hc : c ∈ chaseCandidates current playerPos) : manhattan c current = 1 := by
  simp only [chaseCandidates] at hc
  split_ifs at hc <;>
    simp only [List.mem_append, List.mem_singleton, List.mem_cons, List.not_mem_nil,
      or_false, false_or, List.nil_append, List.append_nil] at hc
  all_goals try rcases hc with rfl | rfl
  all_goals (simp only [manhattan]; omega)

theorem jitterStep_manhattan (current : Position) (jp : Nat) :
    manhattan ⟨current.row + (jitterDirs.getD jp (-1, 0)).1,
               current.col + (jitterDirs.getD jp (-1, 0)).2⟩ current = 1 := by
  rcases jp with _ | _ | _ | _ | jp <;>
    (simp only [jitterDirs, List.getD, List.get?, Option.getD, manhattan]; omega)

end VariantB

/-! ### Counterexample and easy claim theorems -/

/-- Claim C1 counterexample: in the first `page.tsx` game, with the defender at
`(0,0)`, the player at `(4,11)` and no other defender, both pursuit candidates
are valid and the first one in priority order is `(0,1)`; yet the legal random
draw `pick = 1` makes `getNextDefenderPosition` return `(1,0)` — the selection
is a uniform pick among the valid candidates, not "the first valid candidate in
priority order". -/
theorem claim1_counterexample :
    VariantA.getNextDefenderPosition ⟨0, 0⟩ ⟨4, 11⟩ [⟨0, 0⟩] 0 true 1 = ⟨1, 0⟩ ∧
    ((VariantA.chaseCandidates ⟨0, 0⟩ ⟨4, 11⟩).filter
        (fun c => VariantA.canMoveIntoCell c [⟨0, 0⟩] 0)).head? = some ⟨0, 1⟩ ∧
    1 < ((VariantA.chaseCandidates ⟨0, 0⟩ ⟨4, 11⟩).filter
        (fun c => VariantA.canMoveIntoCell c [⟨0, 0⟩] 0)).length ∧
    (⟨1, 0⟩ : Position) ≠ ⟨0, 1⟩ := by
  decide

/-- Claim C2 counterexample: in the second `page.tsx` game, the player at
`(3,10)` issuing RIGHT with a defender on `(3,11)` ends TACKLED, not
TOUCHDOWN — the defender-collision check runs after the touchdown check and
overrides it. -/
theorem claim2_counterexample :
    VariantB.movePlayer ⟨3, 10⟩ 0 1 [⟨3, 11⟩] = (⟨3, 11⟩, GameStatus.TACKLED) ∧
    GameStatus.TACKLED ≠ GameStatus.TOUCHDOWN := by
  decide

/-- Claim C3 counterexample: in the second `page.tsx` game, a defender at
`(0,0)` chasing a player at `(1,3)` has column delta 3 and row delta 1, so the
claimed ordering puts the column candidate `(0,1)` first; the code always puts
the row candidate `(1,0)` first. -/
theorem claim3_counterexample :
    VariantB.chaseCandidates ⟨0, 0⟩ ⟨1, 3⟩ = [⟨1, 0⟩, ⟨0, 1⟩] ∧
    specPursuitCandidates ⟨0, 0⟩ ⟨1, 3⟩ = [⟨0, 1⟩, ⟨1, 0⟩] ∧
    ([⟨1, 0⟩, ⟨0, 1⟩] : List Position) ≠ [⟨0, 1⟩, ⟨1, 0⟩] := by
  decide

/-- Claim C5 counterexample: the `part_000` policy has no occupancy filter. A
defender at `(0,1)` chasing a player at `(0,3)` steps onto `(0,2)` even though
the other defender sits there; and one synchronous tick maps the defender set
`[(0,1), (1,2)]` with the player at `(0,5)` to `[(0,2), (0,2)]` — two distinct
indices holding equal positions (the random draws used are all legal:
`optPick 0` with one option, `optPick 1` with two options). -/
theorem claim5_counterexample :
    VariantC.stepDefenderTowardPlayer ⟨0, 1⟩ ⟨0, 3⟩ false 0 0 = ⟨0, 2⟩ ∧
    VariantC.stepAllDefenders [⟨0, 1⟩, ⟨1, 2⟩] ⟨0, 5⟩ [(false, 0, 0), (false, 0, 1)] =
      [⟨0, 2⟩, ⟨0, 2⟩] ∧
    ¬ DefendersDistinct
      (VariantC.stepAllDefenders [⟨0, 1⟩, ⟨1, 2⟩] ⟨0, 5⟩ [(false, 0, 0), (false, 0, 1)]) := by
  refine ⟨by decide, by decide, ?_⟩
  intro h
  exact h 0 1 (by decide) (by decide) (by decide) (by decide)

/-- Claim C8 counterexample: in the second `page.tsx` game, the jitter branch
draws a single cardinal direction rather than picking uniformly among all valid
neighbors. With the defender at `(0,0)`, no other defenders and the legal draw
of direction 0 (up), the code stays at `(0,0)` even though the valid in-bounds
neighbors `(1,0)` and `(0,1)` are nonempty. -/
theorem claim8_counterexample :
    VariantB.getNextDefenderPosition ⟨0, 0⟩ ⟨4, 11⟩ [⟨0, 0⟩] 0 false 0 = ⟨0, 0⟩ ∧
    (specJitterCandidates VariantB.ROWS VariantB.COLS ⟨0, 0⟩).filter
        (VariantB.validCell [⟨0, 0⟩] 0) = [⟨1, 0⟩, ⟨0, 1⟩] ∧
    (⟨0, 0⟩ : Position) ∉ ([⟨1, 0⟩, ⟨0, 1⟩] : List Position) := by
  decide

/-- Claim C9 counterexample: in the first `page.tsx` game the wake delay adds a
uniform offset drawn from `[-100, 100]` to the 1000/1500 base, so the legal
draws `coin = true, offset = 100` produce 1100 ms, which is neither 1000 nor
1500. -/
theorem claim9_counterexample :
    VariantA.randomDefenderDelayMs true 100 = 1100 ∧
    ¬ ((1100 : Int) = 1000 ∨ (1100 : Int) = 1500) ∧
    (-100 : Int) ≤ 100 ∧ (100 : Int) ≤ 100 := by
  decide

/-- Claim C9 (amended): the second `page.tsx` game's delay is exactly 1000 ms
or 1500 ms according to the coin draw; the first game's delay adds an
independent uniform integer offset in `[-100, 100]`, giving a delay in
`[900, 1100] ∪ [1400, 1600]`. -/
theorem claim9_amended (coin : Bool) (offset : Int)
    (h1 : -100 ≤ offset) (h2 : offset ≤ 100) :
    ((900 ≤ VariantA.randomDefenderDelayMs coin offset ∧
        VariantA.randomDefenderDelayMs coin offset ≤ 1100) ∨
      (1400 ≤ VariantA.randomDefenderDelayMs coin offset ∧
        VariantA.randomDefenderDelayMs coin offset ≤ 1600)) ∧
    (VariantB.randomDefenderDelayMs coin = 1000 ∨
      VariantB.randomDefenderDelayMs coin = 1500) := by
  cases coin <;> simp [VariantA.randomDefenderDelayMs, VariantB.randomDefenderDelayMs] <;> omega

/-- Claim C9 witness: the amended delay bounds evaluated at the concrete legal
draws `coin = false, offset = -100`. -/
theorem claim9_witness :
    ((900 ≤ VariantA.randomDefenderDelayMs false (-100) ∧
        VariantA.randomDefenderDelayMs false (-100) ≤ 1100) ∨
      (1400 ≤ VariantA.randomDefenderDelayMs false (-100) ∧
        VariantA.randomDefenderDelayMs false (-100) ≤ 1600)) ∧
    (VariantB.randomDefenderDelayMs false = 1000 ∨
      VariantB.randomDefenderDelayMs false = 1500) :=
  claim9_amended false (-100) (by decide) (by decide)

/-- Claim C10: for every in-bounds defender position and every player
position, defender set, index and random draws, `getNextDefenderPosition` (in
both `page.tsx` games) returns either the defender's current cell or a cell at
Manhattan distance exactly 1 from it — a defender moves at most one cell per
wake, never diagonally and never by more than one step. -/
theorem claim10_theorem (defender player : Position) (defsA defsB : List Position)
    (index : Nat) (chase : Bool) (pick : Nat)
    (hb : inBounds VariantA.ROWS VariantA.COLS defender = true) :
    (VariantA.getNextDefenderPosition defender player defsA index chase pick = defender ∨
      manhattan (VariantA.getNextDefenderPosition defender player defsA index chase pick)
        defender = 1) ∧
    (VariantB.getNextDefenderPosition defender player defsB index chase pick = defender ∨
      manhattan (VariantB.getNextDefenderPosition defender player defsB index chase pick)
        defender = 1) := by
  have hb' : 0 ≤ defender.row ∧ defender.row < 5 ∧ 0 ≤ defender.col ∧ defender.col < 12 := by
    simpa [inBounds, VariantA.ROWS, VariantA.COLS, and_assoc] using hb
  constructor
  · rcases VariantA.getNext_cases defender player defsA index chase pick with h | ⟨hmem, _⟩
    · exact Or.inl h
    · refine eq_or_manhattan_one ?_
      cases chase
      · exact VariantA.jitterCandidates_manhattan_le hb'.1 hb'.2.1 hb'.2.2.1 hb'.2.2.2
          (by simpa using hmem)
      · exact VariantA.chaseCandidates_manhattan_le hb'.1 hb'.2.1 hb'.2.2.1 hb'.2.2.2
          (by simpa using hmem)
  · rcases VariantB.getNext_mem defender player defsB index chase pick with h | hmem
    · exact Or.inl h
    · right
      cases chase
      · have heq : VariantB.getNextDefenderPosition defender player defsB index false pick =
            ⟨defender.row + (VariantB.jitterDirs.getD pick (-1, 0)).1,
             defender.col + (VariantB.jitterDirs.getD pick (-1, 0)).2⟩ := by
          simpa using hmem
        rw [heq]
        exact VariantB.jitterStep_manhattan defender pick
      · exact VariantB.chaseCandidates_manhattan (by simpa using hmem)

/-- Claim C10 witness: the step-size bound evaluated at the concrete in-bounds
defender `(0,0)`, player `(4,11)`, singleton defender sets, chase mode and
draw 0. -/
theorem claim10_witness :
    (VariantA.getNextDefenderPosition ⟨0, 0⟩ ⟨4, 11⟩ [⟨0, 0⟩] 0 true 0 = ⟨0, 0⟩ ∨
      manhattan (VariantA.getNextDefenderPosition ⟨0, 0⟩ ⟨4, 11⟩ [⟨0, 0⟩] 0 true 0)
        ⟨0, 0⟩ = 1) ∧
    (VariantB.getNextDefenderPosition ⟨0, 0⟩ ⟨4, 11⟩ [⟨0, 0⟩] 0 true 0 = ⟨0, 0⟩ ∨
      manhattan (VariantB.getNextDefenderPosition ⟨0, 0⟩ ⟨4, 11⟩ [⟨0, 0⟩] 0 true 0)
        ⟨0, 0⟩ = 1) :=
  claim10_theorem ⟨0, 0⟩ ⟨4, 11⟩ [⟨0, 0⟩] [⟨0, 0⟩] 0 true 0 (by decide)

/-- Claim C2 (amended): in the first `page.tsx` game the outcomes are
evaluated in order exactly as claimed — reaching the rightmost column yields
TOUCHDOWN regardless of defenders, otherwise landing on a defender yields
TACKLED, otherwise the status stays PLAYING. In the second game the collision
check runs after the touchdown check and overrides it: a candidate on the
rightmost column occupied by a defender yields TACKLED, not TOUCHDOWN. -/
theorem claim2_amended (prev : Position) (dRow dCol : Int) (defs : List Position) :
    ((⟨clamp (prev.row + dRow) 0 (VariantA.ROWS - 1),
        clamp (prev.col + dCol) 0 (VariantA.COLS - 1)⟩ : Position).col = VariantA.COLS - 1 →
      (VariantA.movePlayer prev dRow dCol defs).2 = GameStatus.TOUCHDOWN) ∧
    ((⟨clamp (prev.row + dRow) 0 (VariantA.ROWS - 1),
        clamp (prev.col + dCol) 0 (VariantA.COLS - 1)⟩ : Position).col ≠ VariantA.COLS - 1 →
      defs.any (fun d => positionsEqual d ⟨clamp (prev.row + dRow) 0 (VariantA.ROWS - 1),
        clamp (prev.col + dCol) 0 (VariantA.COLS - 1)⟩) = true →
      (VariantA.movePlayer prev dRow dCol defs).2 = GameStatus.TACKLED) ∧
    ((⟨clamp (prev.row + dRow) 0 (VariantA.ROWS - 1),
        clamp (prev.col + dCol) 0 (VariantA.COLS - 1)⟩ : Position).col ≠ VariantA.COLS - 1 →
      defs.any (fun d => positionsEqual d ⟨clamp (prev.row + dRow) 0 (VariantA.ROWS - 1),
        clamp (prev.col + dCol) 0 (VariantA.COLS - 1)⟩) = false →
      (VariantA.movePlayer prev dRow dCol defs).2 = GameStatus.PLAYING) ∧
    (defs.any (fun d => positionsEqual d ⟨clamp (prev.row + dRow) 0 (VariantB.ROWS - 1),
        clamp (prev.col + dCol) 0 (VariantB.COLS - 1)⟩) = true →
      (VariantB.movePlayer prev dRow dCol defs).2 = GameStatus.TACKLED) ∧
    (defs.any (fun d => positionsEqual d ⟨clamp (prev.row + dRow) 0 (VariantB.ROWS - 1),
        clamp (prev.col + dCol) 0 (VariantB.COLS - 1)⟩) = false →
      (⟨clamp (prev.row + dRow) 0 (VariantB.ROWS - 1),
        clamp (prev.col + dCol) 0 (VariantB.COLS - 1)⟩ : Position).col = VariantB.COLS - 1 →
      (VariantB.movePlayer prev dRow dCol defs).2 = GameStatus.TOUCHDOWN) ∧
    (defs.any (fun d => positionsEqual d ⟨clamp (prev.row + dRow) 0 (VariantB.ROWS - 1),
        clamp (prev.col + dCol) 0 (VariantB.COLS - 1)⟩) = false →
      (⟨clamp (prev.row + dRow) 0 (VariantB.ROWS - 1),
        clamp (prev.col + dCol) 0 (VariantB.COLS - 1)⟩ : Position).col ≠ VariantB.COLS - 1 →
      (VariantB.movePlayer prev dRow dCol defs).2 = GameStatus.PLAYING) := by
  refine ⟨?_, ?_, ?_, ?_, ?_, ?_⟩
  · intro h1
    have h1' : clamp (prev.col + dCol) 0 (VariantA.COLS - 1) = VariantA.COLS - 1 := h1
    simp [VariantA.movePlayer, h1']
  · intro h1 h2
    have h1' : ¬ clamp (prev.col + dCol) 0 (VariantA.COLS - 1) = VariantA.COLS - 1 := h1
    simp [VariantA.movePlayer, h1', h2]
  · intro h1 h2
    have h1' : ¬ clamp (prev.col + dCol) 0 (VariantA.COLS - 1) = VariantA.COLS - 1 := h1
    simp [VariantA.movePlayer, h1', h2]
  · intro h1
    simp [VariantB.movePlayer, h1]
  · intro h1 h2
    have h2' : clamp (prev.col + dCol) 0 (VariantB.COLS - 1) = VariantB.COLS - 1 := h2
    rw [h2'] at h1
    simp [VariantB.movePlayer, h1, h2']
  · intro h1 h2
    have h2' : ¬ clamp (prev.col + dCol) 0 (VariantB.COLS - 1) = VariantB.COLS - 1 := h2
    simp [VariantB.movePlayer, h1, h2']

/-- Claim C2 witness: the in-order evaluation at the spec's own scenario —
player `(3,10)` issuing RIGHT in the first game with a defender on `(3,11)`
still scores TOUCHDOWN. -/
theorem claim2_witness :
    (VariantA.movePlayer ⟨3, 10⟩ 0 1 [⟨3, 11⟩]).2 = GameStatus.TOUCHDOWN :=
  (claim2_amended ⟨3, 10⟩ 0 1 [⟨3, 11⟩]).1 (by decide)

theorem VariantA.movePlayer_fst (prev : Position) (dRow dCol : Int)
    (defs : List Position) :
    (movePlayer prev dRow dCol defs).1 =
      ⟨clamp (prev.row + dRow) 0 (ROWS - 1), clamp (prev.col + dCol) 0 (COLS - 1)⟩ := by
  simp only [movePlayer]
  split
  · rfl
  · split <;> rfl

theorem VariantA.movePlayer_playing_col {prev : Position} {dRow dCol : Int}
    {defs : List Position}
    (h : (movePlayer prev dRow dCol defs).2 = GameStatus.PLAYING) :
    (movePlayer prev dRow dCol defs).1.col ≠ COLS - 1 := by
  by_cases hcol : clamp (prev.col + dCol) 0 (COLS - 1) = COLS - 1
  · exfalso
    have htd : (movePlayer prev dRow dCol defs).2 = GameStatus.TOUCHDOWN := by
      simp [movePlayer, hcol]
    rw [htd] at h
    exact GameStatus.noConfusion h
  · rw [movePlayer_fst]
    exact hcol

theorem VariantA.defenderWake_player (s : SessionState) (index : Nat)
    (chase : Bool) (pick : Nat) :
    ((defenderWake s index chase pick).1).player = s.player := by
  unfold defenderWake
  split
  · rfl
  · split
    · rfl
    · dsimp only
      split <;> rfl

theorem VariantA.defenderWake_playing_status {s : SessionState} {index : Nat}
    {chase : Bool} {pick : Nat}
    (h : ((defenderWake s index chase pick).1).status = GameStatus.PLAYING) :
    s.status = GameStatus.PLAYING := by
  by_contra hne
  unfold defenderWake at h
  rw [if_pos hne] at h
  exact hne h

theorem VariantA.handleArrowKey_playing_col {s : SessionState} {dRow dCol : Int}
    (hprev : s.status = GameStatus.PLAYING → s.player.col ≠ COLS - 1)
    (hst : (handleArrowKey s dRow dCol).status = GameStatus.PLAYING) :
    (handleArrowKey s dRow dCol).player.col ≠ COLS - 1 := by
  by_cases hg : s.status ≠ GameStatus.PLAYING
  · unfold handleArrowKey at hst ⊢
    rw [if_pos hg] at hst ⊢
    exact hprev hst
  · unfold handleArrowKey at hst ⊢
    rw [if_neg hg] at hst ⊢
    dsimp only at hst ⊢
    exact movePlayer_playing_col hst

theorem VariantA.reachable_playing_not_last_col :
    ∀ s : SessionState, Reachable s → s.status = GameStatus.PLAYING →
      s.player.col ≠ COLS - 1 := by
  intro s hs
  induction hs with
  | init draws =>
    intro _
    show PLAYER_START.col ≠ COLS - 1
    decide
  | key s dR dC h ih =>
    intro hst
    exact handleArrowKey_playing_col ih hst
  | wake s index chase pick h ih =>
    intro hst
    rw [defenderWake_player]
    exact ih (defenderWake_playing_status hst)

/-- Claim C4: in the first `page.tsx` game, the candidate is `current + delta`
clamped per axis independently, the player position is always updated to the
candidate whatever status branch fires, and a move fully rejected by clamping
(candidate = previous position) triggers no transition unless the unchanged
position already equals a defender's position (the hypothesis
`prev.col ≠ COLS - 1` holds in every reachable PLAYING state — the last
conjunct — since reaching the last column immediately ends the game). -/
theorem claim4_theorem (prev : Position) (dRow dCol : Int) (defs : List Position) :
    (∀ s : VariantA.SessionState, VariantA.Reachable s →
      s.status = GameStatus.PLAYING → s.player.col ≠ VariantA.COLS - 1) ∧
    (VariantA.movePlayer prev dRow dCol defs).1 =
      ⟨clamp (prev.row + dRow) 0 (VariantA.ROWS - 1),
       clamp (prev.col + dCol) 0 (VariantA.COLS - 1)⟩ ∧
    (prev.col ≠ VariantA.COLS - 1 →
      (⟨clamp (prev.row + dRow) 0 (VariantA.ROWS - 1),
         clamp (prev.col + dCol) 0 (VariantA.COLS - 1)⟩ : Position) = prev →
      ((defs.any (fun d => positionsEqual d prev) = true →
          (VariantA.movePlayer prev dRow dCol defs).2 = GameStatus.TACKLED) ∧
        (defs.any (fun d => positionsEqual d prev) = false →
          (VariantA.movePlayer prev dRow dCol defs).2 = GameStatus.PLAYING))) := by
  refine ⟨VariantA.reachable_playing_not_last_col, ?_, ?_⟩
  · simp only [VariantA.movePlayer]
    split
    · rfl
    · split <;> rfl
  · intro hcol heq
    have hcol2 : (⟨clamp (prev.row + dRow) 0 (VariantA.ROWS - 1),
        clamp (prev.col + dCol) 0 (VariantA.COLS - 1)⟩ : Position).col ≠ VariantA.COLS - 1 := by
      rw [heq]; exact hcol
    constructor
    · intro hmem
      unfold VariantA.movePlayer
      rw [if_neg hcol2, if_pos (by rw [heq]; exact hmem)]
    · intro hmem
      unfold VariantA.movePlayer
      rw [if_neg hcol2, if_neg (by rw [heq]; simp [hmem])]

/-- Claim C4 witness: pressing UP at row 0 (player `(0,3)`, one defender away
at `(4,8)`) leaves the player at `(0,3)` and the status PLAYING. -/
theorem claim4_witness :
    (VariantA.movePlayer ⟨0, 3⟩ (-1) 0 [⟨4, 8⟩]).1 =
      ⟨clamp ((0 : Int) + -1) 0 (VariantA.ROWS - 1),
       clamp ((3 : Int) + 0) 0 (VariantA.COLS - 1)⟩ ∧
    (VariantA.movePlayer ⟨0, 3⟩ (-1) 0 [⟨4, 8⟩]).2 = GameStatus.PLAYING :=
  ⟨(claim4_theorem ⟨0, 3⟩ (-1) 0 [⟨4, 8⟩]).2.1,
    ((claim4_theorem ⟨0, 3⟩ (-1) 0 [⟨4, 8⟩]).2.2 (by decide) (by decide)).2 (by decide)⟩

/-- Claim C6: in both `page.tsx` games, a defender wake that fires while the
status is TOUCHDOWN or TACKLED performs no move (the session state is
unchanged), and does not reschedule itself; an arrow key in a terminal state
is likewise a no-op, so terminal states are never left except by an explicit
reset. -/
theorem claim6_theorem (sA : VariantA.SessionState) (sB : VariantB.SessionState)
    (iA iB : Nat) (cA cB : Bool) (pA pB : Nat) (dRow dCol : Int)
    (hA : sA.status = GameStatus.TOUCHDOWN ∨ sA.status = GameStatus.TACKLED)
    (hB : sB.status = GameStatus.TOUCHDOWN ∨ sB.status = GameStatus.TACKLED) :
    VariantA.defenderWake sA iA cA pA = (sA, false) ∧
    VariantA.handleArrowKey sA dRow dCol = sA ∧
    VariantB.defenderWake sB iB cB pB = (sB, false) ∧
    VariantB.handleArrowKey sB dRow dCol = sB := by
  have hA' : sA.status ≠ GameStatus.PLAYING := by rcases hA with h | h <;> simp [h]
  have hB' : sB.status ≠ GameStatus.PLAYING := by rcases hB with h | h <;> simp [h]
  refine ⟨?_, ?_, ?_, ?_⟩
  · unfold VariantA.defenderWake; rw [if_pos hA']
  · unfold VariantA.handleArrowKey; rw [if_pos hA']
  · unfold VariantB.defenderWake; rw [if_pos hB']
  · unfold VariantB.handleArrowKey; rw [if_pos hB']

/-- Claim C6 witness: a wake and a key press on concrete TACKLED/TOUCHDOWN
states change nothing and do not reschedule. -/
theorem claim6_witness :
    VariantA.defenderWake ⟨⟨3, 1⟩, [⟨3, 5⟩], GameStatus.TACKLED⟩ 0 true 0 =
      (⟨⟨3, 1⟩, [⟨3, 5⟩], GameStatus.TACKLED⟩, false) ∧
    VariantA.handleArrowKey ⟨⟨3, 1⟩, [⟨3, 5⟩], GameStatus.TACKLED⟩ 0 1 =
      ⟨⟨3, 1⟩, [⟨3, 5⟩], GameStatus.TACKLED⟩ ∧
    VariantB.defenderWake ⟨⟨2, 11⟩, [⟨4, 5⟩], GameStatus.TOUCHDOWN⟩ 0 true 0 =
      (⟨⟨2, 11⟩, [⟨4, 5⟩], GameStatus.TOUCHDOWN⟩, false) ∧
    VariantB.handleArrowKey ⟨⟨2, 11⟩, [⟨4, 5⟩], GameStatus.TOUCHDOWN⟩ 0 1 =
      ⟨⟨2, 11⟩, [⟨4, 5⟩], GameStatus.TOUCHDOWN⟩ :=
  claim6_theorem ⟨⟨3, 1⟩, [⟨3, 5⟩], GameStatus.TACKLED⟩
    ⟨⟨2, 11⟩, [⟨4, 5⟩], GameStatus.TOUCHDOWN⟩ 0 0 true true 0 0 0 1
    (Or.inr rfl) (Or.inl rfl)

/-! ### Distinctness preservation for the occupancy-filtered policies -/

theorem defendersDistinct_set {l : List Position} {index : Nat} {v : Position}
    (hd : DefendersDistinct l)
    (hv : ∀ (j : Nat) (hj : j < l.length), j ≠ index → l[j] ≠ v) :
    DefendersDistinct (l.set index v) := by
  intro i j hi hj hij
  rw [List.length_set] at hi hj
  rw [List.getElem_set, List.getElem_set]
  split_ifs with h1 h2
  · exact absurd (h1.symm.trans h2) hij
  · exact (hv j hj (fun hh => h2 hh.symm)).symm
  · exact hv i hi (fun hh => h1 hh.symm)
  · exact hd i j hi hj hij

theorem VariantA.set_next_distinct {defs : List Position} (player : Position)
    {index : Nat} (hidx : index < defs.length) (chase : Bool) (pick : Nat)
    (hd : DefendersDistinct defs) :
    DefendersDistinct (defs.set index
      (getNextDefenderPosition defs[index] player defs index chase pick)) := by
  rcases getNext_cases defs[index] player defs index chase pick with h | ⟨_, hvalid⟩
  · rw [h]
    exact defendersDistinct_set hd (fun j hj hne => hd j index hj hidx hne)
  · exact defendersDistinct_set hd (fun j hj hne => canMoveIntoCell_spec hvalid j hj hne)

theorem VariantB.validCell_not_occupied {defs : List Position} {index : Nat} {c : Position}
    (h : validCell defs index c = true) :
    ∀ (j : Nat) (hj : j < defs.length), j ≠ index → defs[j] ≠ c := by
  intro j hj hne
  have hocc : isOccupiedByDefender defs index c.row c.col = false := by
    simp only [validCell, Bool.and_eq_true, Bool.not_eq_true'] at h
    exact h.2
  exact isOccupiedByDefender_spec hocc j hj hne

theorem VariantB.setNextB_distinct {defs : List Position} (player : Position)
    {index : Nat} (hidx : index < defs.length) (chase : Bool) (jitterPick : Nat)
    (hd : DefendersDistinct defs) :
    DefendersDistinct (defs.set index
      (getNextDefenderPosition defs[index] player defs index chase jitterPick)) := by
  rcases getNextB_cases defs[index] player defs index chase jitterPick with h | hvalid
  · rw [h]
    exact defendersDistinct_set hd (fun j hj hne => hd j index hj hidx hne)
  · exact defendersDistinct_set hd (fun j hj hne => validCell_not_occupied hvalid j hj hne)

theorem VariantA.wake_preserves_distinct (s : SessionState) (index : Nat)
    (chase : Bool) (pick : Nat) (hd : DefendersDistinct s.defenders) :
    DefendersDistinct ((defenderWake s index chase pick).1).defenders := by
  unfold defenderWake
  split
  · exact hd
  · split
    · exact hd
    · rename_i currentDef hg
      have hidx : index < s.defenders.length := by
        by_contra hge
        rw [List.get?_eq_none.mpr (by omega)] at hg
        exact Option.noConfusion hg
      have hcur : currentDef = s.defenders[index] := by
        rw [List.get?_eq_getElem? , List.getElem?_eq_getElem hidx] at hg
        exact (Option.some.injEq _ _ ▸ hg).symm
      subst hcur
      dsimp only
      split
      · exact set_next_distinct s.player hidx chase pick hd
      · exact set_next_distinct s.player hidx chase pick hd

theorem VariantB.wakeB_preserves_distinct (s : SessionState) (index : Nat)
    (chase : Bool) (jitterPick : Nat) (hd : DefendersDistinct s.defenders) :
    DefendersDistinct ((defenderWake s index chase jitterPick).1).defenders := by
  unfold defenderWake
  split
  · exact hd
  · split
    · exact hd
    · rename_i currentDef hg
      have hidx : index < s.defenders.length := by
        by_contra hge
        rw [List.get?_eq_none.mpr (by omega)] at hg
        exact Option.noConfusion hg
      have hcur : currentDef = s.defenders[index] := by
        rw [List.get?_eq_getElem? , List.getElem?_eq_getElem hidx] at hg
        exact (Option.some.injEq _ _ ▸ hg).symm
      subst hcur
      dsimp only
      split
      · exact setNextB_distinct s.player hidx chase jitterPick hd
      · exact setNextB_distinct s.player hidx chase jitterPick hd

/-! ### Rejection-sampling lemmas for defender generation -/

theorem generateDefendersGo_subset (n : Nat) (player : Position) :
    ∀ (draws acc : List Position) (d : Position),
      d ∈ generateDefendersGo n player draws acc →
      d ∈ acc ∨ (d ∈ draws ∧ positionsEqual d player = false) := by
  intro draws
  induction draws with
  | nil =>
    intro acc d hd
    exact Or.inl (by simpa [generateDefendersGo] using hd)
  | cons c rest ih =>
    intro acc d hd
    rw [generateDefendersGo] at hd
    split_ifs at hd with hfull hrej
    · exact Or.inl hd
    · rcases ih acc d hd with h | ⟨h1, h2⟩
      · exact Or.inl h
      · exact Or.inr ⟨List.mem_cons_of_mem _ h1, h2⟩
    · rcases ih (acc ++ [c]) d hd with h | ⟨h1, h2⟩
      · rcases List.mem_append.mp h with h | h
        · exact Or.inl h
        · have hc : d = c := by simpa using h
          subst hc
          simp only [Bool.or_eq_true, not_or, Bool.not_eq_true] at hrej
          exact Or.inr ⟨List.mem_cons_self _ _, hrej.1⟩
      · exact Or.inr ⟨List.mem_cons_of_mem _ h1, h2⟩

theorem generateDefendersGo_nodup (n : Nat) (player : Position) :
    ∀ (draws acc : List Position), acc.Nodup →
      (generateDefendersGo n player draws acc).Nodup := by
  intro draws
  induction draws with
  | nil =>
    intro acc h
    simpa [generateDefendersGo] using h
  | cons c rest ih =>
    intro acc h
    rw [generateDefendersGo]
    split_ifs with hfull hrej
    · exact h
    · exact ih acc h
    · refine ih (acc ++ [c]) ?_
      rw [List.nodup_append]
      refine ⟨h, List.nodup_singleton c, ?_⟩
      intro a ha hb
      have hac : a = c := by simpa using hb
      subst hac
      simp only [Bool.or_eq_true, not_or, Bool.not_eq_true] at hrej
      have h2 := hrej.2
      rw [List.any_eq_false] at h2
      exact (h2 a ha) (positionsEqual_iff.mpr rfl)

theorem generateDefendersGo_length_le (n : Nat) (player : Position) :
    ∀ (draws acc : List Position), acc.length ≤ n →
      (generateDefendersGo n player draws acc).length ≤ n := by
  intro draws
  induction draws with
  | nil =>
    intro acc h
    simpa [generateDefendersGo] using h
  | cons c rest ih =>
    intro acc h
    rw [generateDefendersGo]
    split_ifs with hfull hrej
    · exact h
    · exact ih acc h
    · refine ih (acc ++ [c]) ?_
      simp only [List.length_append, List.length_singleton]
      omega

theorem generateDefendersGo_length_eq (n : Nat) (player : Position) :
    ∀ (draws acc : List Position), draws.Nodup →
      (∀ d ∈ draws, positionsEqual d player = false) →
      (∀ d ∈ draws, d ∉ acc) → acc.length ≤ n →
      (generateDefendersGo n player draws acc).length = min n (acc.length + draws.length) := by
  intro draws
  induction draws with
  | nil =>
    intro acc _ _ _ hle
    simp only [generateDefendersGo, List.length_nil]
    omega
  | cons c rest ih =>
    intro acc hnd hplayer hdisj hle
    rw [generateDefendersGo]
    split_ifs with hfull hrej
    · simp only [List.length_cons]
      omega
    · exfalso
      rw [Bool.or_eq_true] at hrej
      rcases hrej with h | h
      · exact absurd (hplayer c (List.mem_cons_self _ _)) (by simp [h])
      · rw [List.any_eq_true] at h
        obtain ⟨d, hd, hdc⟩ := h
        exact hdisj c (List.mem_cons_self _ _) ((positionsEqual_iff.mp hdc) ▸ hd)
    · rw [ih (acc ++ [c]) (List.nodup_cons.mp hnd).2
        (fun d hd => hplayer d (List.mem_cons_of_mem _ hd)) ?_ ?_]
      · simp only [List.length_append, List.length_singleton, List.length_cons,
          List.length_nil]
        omega
      · intro d hd hmem
        rcases List.mem_append.mp hmem with h | h
        · exact hdisj d (List.mem_cons_of_mem _ hd) h
        · have hdc : d = c := by simpa using h
          exact (List.nodup_cons.mp hnd).1 (hdc ▸ hd)
      · simp only [List.length_append, List.length_singleton]
        omega

theorem generateDefendersCore_spec (n : Nat) (player : Position) (draws : List Position)
    (rows cols : Int) (hP : player.col < 3)
    (hdr : ∀ c ∈ draws, 0 ≤ c.row ∧ c.row < rows ∧ 3 ≤ c.col ∧ c.col < cols) :
    (generateDefendersCore n player draws).length ≤ n ∧
    (generateDefendersCore n player draws).Nodup ∧
    (∀ d ∈ generateDefendersCore n player draws,
      d ≠ player ∧ inBounds rows cols d = true ∧ 3 ≤ d.col) ∧
    (draws.Nodup → n ≤ draws.length → (generateDefendersCore n player draws).length = n) := by
  refine ⟨?_, ?_, ?_, ?_⟩
  · exact generateDefendersGo_length_le n player draws [] (by simp)
  · exact generateDefendersGo_nodup n player draws [] (by simp)
  · intro d hd
    rcases generateDefendersGo_subset n player draws [] d hd with h | ⟨h1, h2⟩
    · simp at h
    · obtain ⟨b1, b2, b3, b4⟩ := hdr d h1
      refine ⟨positionsEqual_eq_false.mp h2, ?_, b3⟩
      simp only [inBounds, Bool.and_eq_true, decide_eq_true_eq]
      omega
  · intro hnd hlen
    rw [generateDefendersCore,
      generateDefendersGo_length_eq n player draws [] hnd ?_ (by simp) (by simp)]
    · simp only [List.length_nil, Nat.zero_add]
      omega
    · intro d hd
      have h4 := (hdr d hd).2.2.1
      refine positionsEqual_eq_false.mpr (fun he => ?_)
      rw [he] at h4
      omega

/-! ### First-valid selection lemmas for the second game's policy -/

namespace VariantB

theorem find?_result_eq (cands : List Position) (cur : Position) (p : Position → Bool) :
    (match (cands ++ [cur]).find? p with | some c => c | none => cur) =
      ((cands.find? p).getD cur) := by
  rw [List.find?_append]
  cases hc : cands.find? p with
  | some c => rfl
  | none =>
    rw [Option.none_or]
    cases h2 : List.find? p [cur] with
    | none => rfl
    | some c2 => simpa using List.mem_of_find?_eq_some h2

theorem getNext_chase_eq (current playerPos : Position) (defs : List Position)
    (index : Nat) (jitterPick : Nat) :
    getNextDefenderPosition current playerPos defs index true jitterPick =
      ((chaseCandidates current playerPos).find? (validCell defs index)).getD current :=
  find?_result_eq (chaseCandidates current playerPos) current (validCell defs index)

theorem getNext_jitter_eq (current playerPos : Position) (defs : List Position)
    (index : Nat) (jitterPick : Nat) :
    getNextDefenderPosition current playerPos defs index false jitterPick =
      (([(⟨current.row + (jitterDirs.getD jitterPick (-1, 0)).1,
           current.col + (jitterDirs.getD jitterPick (-1, 0)).2⟩ : Position)].find?
        (validCell defs index)).getD current) :=
  find?_result_eq
    [(⟨current.row + (jitterDirs.getD jitterPick (-1, 0)).1,
       current.col + (jitterDirs.getD jitterPick (-1, 0)).2⟩ : Position)]
    current (validCell defs index)

theorem getNext_jitter_if (cur playerPos : Position) (defs : List Position)
    (index pick : Nat) :
    getNextDefenderPosition cur playerPos defs index false pick =
      (if validCell defs index ⟨cur.row + (jitterDirs.getD pick (-1, 0)).1,
          cur.col + (jitterDirs.getD pick (-1, 0)).2⟩ = true
        then (⟨cur.row + (jitterDirs.getD pick (-1, 0)).1,
               cur.col + (jitterDirs.getD pick (-1, 0)).2⟩ : Position)
        else cur) := by
  rw [getNext_jitter_eq]
  cases hv : validCell defs index ⟨cur.row + (jitterDirs.getD pick (-1, 0)).1,
      cur.col + (jitterDirs.getD pick (-1, 0)).2⟩
  · simp only [List.find?, hv, Option.getD_none, Bool.false_eq_true, if_false, ite_false]
  · simp only [List.find?, hv, Option.getD_some, if_true, ite_true]

end VariantB

/-- Claim C5 (amended): in the `page.tsx` games the occupancy filter makes
every defender move preserve pairwise distinctness — in the first game every
reachable session state (initial generation included) has pairwise-distinct
defenders, and in the second game the policy output never collides with a
different defender. The `part_000` variant has no occupancy filter, and there
a tick can move two defenders onto the same cell (see the counterexample). -/
theorem claim5_amended :
    (∀ s : VariantA.SessionState, VariantA.Reachable s → DefendersDistinct s.defenders) ∧
    (∀ (defs : List Position) (player : Position) (index : Nat)
        (hidx : index < defs.length) (chase : Bool) (pick : Nat),
      DefendersDistinct defs →
      DefendersDistinct (defs.set index
        (VariantB.getNextDefenderPosition defs[index] player defs index chase pick))) := by
  constructor
  · intro s hs
    induction hs with
    | init draws =>
      exact defendersDistinct_of_nodup
        (generateDefendersGo_nodup VariantA.NUM_DEFENDERS VariantA.PLAYER_START draws []
          List.nodup_nil)
    | key s dR dC h ih =>
      have hdef : (VariantA.handleArrowKey s dR dC).defenders = s.defenders := by
        unfold VariantA.handleArrowKey
        split <;> rfl
      rw [hdef]
      exact ih
    | wake s index chase pick h ih =>
      exact VariantA.wake_preserves_distinct s index chase pick ih
  · intro defs player index hidx chase pick hd
    exact VariantB.setNextB_distinct player hidx chase pick hd

/-- Claim C5 witness: the invariant evaluated on a concrete initial session of
the first game and on a concrete one-step update of the second game. -/
theorem claim5_witness :
    DefendersDistinct (VariantA.generateDefenders VariantA.PLAYER_START
      [⟨0, 3⟩, ⟨1, 4⟩, ⟨2, 5⟩, ⟨3, 6⟩, ⟨4, 7⟩, ⟨0, 8⟩]) ∧
    DefendersDistinct (([⟨0, 3⟩, ⟨1, 4⟩] : List Position).set 0
      (VariantB.getNextDefenderPosition (([⟨0, 3⟩, ⟨1, 4⟩] : List Position)[0]) ⟨3, 1⟩
        [⟨0, 3⟩, ⟨1, 4⟩] 0 true 0)) :=
  ⟨claim5_amended.1 _
      (VariantA.Reachable.init [⟨0, 3⟩, ⟨1, 4⟩, ⟨2, 5⟩, ⟨3, 6⟩, ⟨4, 7⟩, ⟨0, 8⟩]),
    claim5_amended.2 [⟨0, 3⟩, ⟨1, 4⟩] ⟨3, 1⟩ 0 (by decide) true 0
      (defendersDistinct_of_nodup (by decide))⟩

/-- Claim C7: `generateDefenders` (first `page.tsx` game and `part_000`, which
share the loop) performs rejection sampling that redraws any colliding
candidate; given in-range random draws it returns at most `NUM_DEFENDERS`
positions — exactly `NUM_DEFENDERS` once enough distinct non-colliding draws
arrive — that are pairwise distinct, in bounds with column at least 3, and
never equal to the player's starting position (whose column is below 3). -/
theorem claim7_theorem (player : Position) (drawsA drawsC : List Position)
    (hP : player.col < 3)
    (hA : ∀ c ∈ drawsA, 0 ≤ c.row ∧ c.row < VariantA.ROWS ∧ 3 ≤ c.col ∧ c.col < VariantA.COLS)
    (hC : ∀ c ∈ drawsC, 0 ≤ c.row ∧ c.row < VariantC.ROWS ∧ 3 ≤ c.col ∧ c.col < VariantC.COLS) :
    ((VariantA.generateDefenders player drawsA).length ≤ VariantA.NUM_DEFENDERS ∧
      DefendersDistinct (VariantA.generateDefenders player drawsA) ∧
      (∀ d ∈ VariantA.generateDefenders player drawsA,
        d ≠ player ∧ inBounds VariantA.ROWS VariantA.COLS d = true ∧ 3 ≤ d.col) ∧
      (drawsA.Nodup → VariantA.NUM_DEFENDERS ≤ drawsA.length →
        (VariantA.generateDefenders player drawsA).length = VariantA.NUM_DEFENDERS)) ∧
    ((VariantC.generateDefenders player drawsC).length ≤ VariantC.NUM_DEFENDERS ∧
      DefendersDistinct (VariantC.generateDefenders player drawsC) ∧
      (∀ d ∈ VariantC.generateDefenders player drawsC,
        d ≠ player ∧ inBounds VariantC.ROWS VariantC.COLS d = true ∧ 3 ≤ d.col) ∧
      (drawsC.Nodup → VariantC.NUM_DEFENDERS ≤ drawsC.length →
        (VariantC.generateDefenders player drawsC).length = VariantC.NUM_DEFENDERS)) := by
  obtain ⟨a1, a2, a3, a4⟩ :=
    generateDefendersCore_spec VariantA.NUM_DEFENDERS player drawsA
      VariantA.ROWS VariantA.COLS hP hA
  obtain ⟨c1, c2, c3, c4⟩ :=
    generateDefendersCore_spec VariantC.NUM_DEFENDERS player drawsC
      VariantC.ROWS VariantC.COLS hP hC
  exact ⟨⟨a1, defendersDistinct_of_nodup a2, a3, a4⟩,
    ⟨c1, defendersDistinct_of_nodup c2, c3, c4⟩⟩

/-- Claim C7 witness: generation evaluated at the player start `(3,1)` with
six distinct in-range draws for each grid. -/
theorem claim7_witness :
    (VariantA.generateDefenders ⟨3, 1⟩
        [⟨0, 3⟩, ⟨1, 4⟩, ⟨2, 5⟩, ⟨3, 6⟩, ⟨4, 7⟩, ⟨0, 11⟩]).length = VariantA.NUM_DEFENDERS ∧
    (VariantC.generateDefenders ⟨3, 1⟩
        [⟨0, 3⟩, ⟨1, 4⟩, ⟨2, 5⟩, ⟨3, 6⟩, ⟨4, 7⟩, ⟨0, 9⟩]).length = VariantC.NUM_DEFENDERS ∧
    DefendersDistinct (VariantA.generateDefenders ⟨3, 1⟩
      [⟨0, 3⟩, ⟨1, 4⟩, ⟨2, 5⟩, ⟨3, 6⟩, ⟨4, 7⟩, ⟨0, 11⟩]) :=
  ⟨((claim7_theorem ⟨3, 1⟩ [⟨0, 3⟩, ⟨1, 4⟩, ⟨2, 5⟩, ⟨3, 6⟩, ⟨4, 7⟩, ⟨0, 11⟩]
      [⟨0, 3⟩, ⟨1, 4⟩, ⟨2, 5⟩, ⟨3, 6⟩, ⟨4, 7⟩, ⟨0, 9⟩] (by decide) (by decide) (by decide)).1).2.2.2
      (by decide) (by decide),
    ((claim7_theorem ⟨3, 1⟩ [⟨0, 3⟩, ⟨1, 4⟩, ⟨2, 5⟩, ⟨3, 6⟩, ⟨4, 7⟩, ⟨0, 11⟩]
      [⟨0, 3⟩, ⟨1, 4⟩, ⟨2, 5⟩, ⟨3, 6⟩, ⟨4, 7⟩, ⟨0, 9⟩] (by decide) (by decide) (by decide)).2).2.2.2
      (by decide) (by decide),
    ((claim7_theorem ⟨3, 1⟩ [⟨0, 3⟩, ⟨1, 4⟩, ⟨2, 5⟩, ⟨3, 6⟩, ⟨4, 7⟩, ⟨0, 11⟩]
      [⟨0, 3⟩, ⟨1, 4⟩, ⟨2, 5⟩, ⟨3, 6⟩, ⟨4, 7⟩, ⟨0, 9⟩] (by decide) (by decide) (by decide)).1).2.1⟩

/-- Claim C1 (amended): when pursuit mode is drawn, the first `page.tsx` game
picks uniformly at random among the valid pursuit candidates (not the first
one in priority order), staying in place when none is valid; the second game
returns the first valid candidate of its fixed order (vertical step, then
horizontal step, then the current cell as fallback); `part_000` picks
uniformly among its pursuit options (which are never occupancy-filtered),
staying only when both deltas are zero. No variant evaluates the four
cardinal neighbors as a Manhattan-distance-decreasing fallback. -/
theorem claim1_amended (defender player : Position) (defs : List Position)
    (index : Nat) (pick : Nat) :
    (((VariantA.chaseCandidates defender player).filter
        (fun c => VariantA.canMoveIntoCell c defs index)) = [] →
      VariantA.getNextDefenderPosition defender player defs index true pick = defender) ∧
    (∀ h : pick < ((VariantA.chaseCandidates defender player).filter
        (fun c => VariantA.canMoveIntoCell c defs index)).length,
      VariantA.getNextDefenderPosition defender player defs index true pick =
        ((VariantA.chaseCandidates defender player).filter
          (fun c => VariantA.canMoveIntoCell c defs index))[pick]) ∧
    (VariantB.getNextDefenderPosition defender player defs index true pick =
      ((VariantB.chaseCandidates defender player).find?
        (VariantB.validCell defs index)).getD defender) ∧
    ((VariantC.chaseOptions defender player) = [] →
      VariantC.stepDefenderTowardPlayer defender player false pick pick = defender) ∧
    (∀ h : pick < (VariantC.chaseOptions defender player).length,
      VariantC.stepDefenderTowardPlayer defender player false pick pick =
        (VariantC.chaseOptions defender player)[pick]) := by
  refine ⟨?_, ?_, ?_, ?_, ?_⟩
  · intro h
    exact VariantA.getNext_eq_of_empty pick h
  · intro h
    exact VariantA.getNext_eq_get h
  · exact VariantB.getNext_chase_eq defender player defs index pick
  · intro h
    simp [VariantC.stepDefenderTowardPlayer, h]
  · intro h
    have hne : (VariantC.chaseOptions defender player).isEmpty = false := by
      cases hl : VariantC.chaseOptions defender player with
      | nil => rw [hl] at h; simp at h
      | cons x xs => rfl
    simp only [VariantC.stepDefenderTowardPlayer, Bool.false_and, Bool.false_eq_true,
      if_false, ite_false, hne]
    exact List.getD_eq_getElem _ _ h

/-- Claim C1 witness: at the scenario defender `(1,5)`, player `(3,5)`, all
three pursuit selections evaluated with legal draw 0 step to `(2,5)`. -/
theorem claim1_witness :
    VariantA.getNextDefenderPosition ⟨1, 5⟩ ⟨3, 5⟩ [⟨1, 5⟩] 0 true 0 = ⟨2, 5⟩ ∧
    VariantB.getNextDefenderPosition ⟨1, 5⟩ ⟨3, 5⟩ [⟨1, 5⟩] 0 true 0 = ⟨2, 5⟩ ∧
    VariantC.stepDefenderTowardPlayer ⟨1, 5⟩ ⟨3, 5⟩ false 0 0 = ⟨2, 5⟩ := by
  refine ⟨?_, ?_, ?_⟩
  · have h := (claim1_amended ⟨1, 5⟩ ⟨3, 5⟩ [⟨1, 5⟩] 0 0).2.1 (by decide)
    rw [h]; decide
  · have h := (claim1_amended ⟨1, 5⟩ ⟨3, 5⟩ [⟨1, 5⟩] 0 0).2.2.1
    rw [h]; decide
  · have h := (claim1_amended ⟨1, 5⟩ ⟨3, 5⟩ [⟨1, 5⟩] 0 0).2.2.2.2 (by decide)
    rw [h]; decide

/-! ### The spec's pursuit ordering against the first game's candidates -/

theorem VariantA.getNext_of_filter_singleton {defender player x : Position}
    {defs : List Position} {index : Nat} {chase : Bool}
    (hfil : ((if chase then chaseCandidates defender player else jitterCandidates defender).filter
        (fun c => canMoveIntoCell c defs index)) = [x]) :
    getNextDefenderPosition defender player defs index chase 0 = x := by
  have h0 : (0 : Nat) < ((if chase then chaseCandidates defender player
      else jitterCandidates defender).filter (fun c => canMoveIntoCell c defs index)).length := by
    rw [hfil]
    simp
  rw [getNext_eq_get h0]
  simp only [hfil, List.getElem_cons_zero]

theorem VariantA.chaseCandidates_eq_spec {current player : Position}
    (h1 : 0 ≤ current.row) (h2 : current.row < 5) (h3 : 0 ≤ current.col)
    (h4 : current.col < 12) (h5 : 0 ≤ player.row) (h6 : player.row < 5)
    (h7 : 0 ≤ player.col) (h8 : player.col < 12) :
    chaseCandidates current player = specPursuitCandidates current player := by
  simp only [chaseCandidates, specPursuitCandidates, ROWS, COLS]
  split_ifs <;>
    simp only [List.singleton_append, List.append_nil, List.nil_append, clamp,
      List.cons.injEq, Position.mk.injEq, and_true, true_and] <;>
    omega

/-- Claim C3 (amended): in the first `page.tsx` game the pursuit candidate
list is exactly as claimed — at most two axis steps, ordered with the axis of
larger absolute delta first (ties row-first), a zero-delta axis contributing
none (for in-bounds defender and player the clamping is the identity, so the
list coincides with the spec's); the second game instead always puts the
row-axis candidate first, regardless of which delta is larger. In both games
the scenario holds: a defender at `(1,5)` chasing a player at `(3,5)` has
primary candidate `(2,5)` and moves there when that cell is unoccupied. -/
theorem claim3_amended (current player : Position) (defs : List Position) (index : Nat)
    (hb1 : inBounds VariantA.ROWS VariantA.COLS current = true)
    (hb2 : inBounds VariantA.ROWS VariantA.COLS player = true) :
    VariantA.chaseCandidates current player = specPursuitCandidates current player ∧
    (VariantA.chaseCandidates current player).length ≤ 2 ∧
    (VariantB.chaseCandidates current player).length ≤ 2 ∧
    (VariantA.canMoveIntoCell ⟨2, 5⟩ defs index = true →
      VariantA.getNextDefenderPosition ⟨1, 5⟩ ⟨3, 5⟩ defs index true 0 = ⟨2, 5⟩) ∧
    (VariantB.validCell defs index ⟨2, 5⟩ = true →
      VariantB.getNextDefenderPosition ⟨1, 5⟩ ⟨3, 5⟩ defs index true 0 = ⟨2, 5⟩) := by
  obtain ⟨a1, a2, a3, a4⟩ : 0 ≤ current.row ∧ current.row < 5 ∧ 0 ≤ current.col ∧
      current.col < 12 := by
    simpa [inBounds, VariantA.ROWS, VariantA.COLS, and_assoc] using hb1
  obtain ⟨b1, b2, b3, b4⟩ : 0 ≤ player.row ∧ player.row < 5 ∧ 0 ≤ player.col ∧
      player.col < 12 := by
    simpa [inBounds, VariantA.ROWS, VariantA.COLS, and_assoc] using hb2
  refine ⟨VariantA.chaseCandidates_eq_spec a1 a2 a3 a4 b1 b2 b3 b4, ?_, ?_, ?_, ?_⟩
  · simp only [VariantA.chaseCandidates, VariantA.ROWS, VariantA.COLS]
    split_ifs <;> simp
  · simp only [VariantB.chaseCandidates]
    split_ifs <;> simp
  · intro h
    refine VariantA.getNext_of_filter_singleton (x := ⟨2, 5⟩) ?_
    show (VariantA.chaseCandidates ⟨1, 5⟩ ⟨3, 5⟩).filter
        (fun c => VariantA.canMoveIntoCell c defs index) = [⟨2, 5⟩]
    have hcc : VariantA.chaseCandidates ⟨1, 5⟩ ⟨3, 5⟩ = [⟨2, 5⟩] := by decide
    rw [hcc, List.filter_cons, List.filter_nil]
    simp [h]
  · intro h
    have hcc : VariantB.chaseCandidates ⟨1, 5⟩ ⟨3, 5⟩ = [⟨2, 5⟩] := by decide
    rw [VariantB.getNext_chase_eq, hcc]
    simp only [List.find?, h, Option.getD_some]

/-- Claim C3 witness: the candidate-list agreement and the scenario evaluated
at defender `(1,5)`, player `(3,5)` with the defender set `[(1,5)]`. -/
theorem claim3_witness :
    VariantA.chaseCandidates ⟨1, 5⟩ ⟨3, 5⟩ = specPursuitCandidates ⟨1, 5⟩ ⟨3, 5⟩ ∧
    VariantA.getNextDefenderPosition ⟨1, 5⟩ ⟨3, 5⟩ [⟨1, 5⟩] 0 true 0 = ⟨2, 5⟩ ∧
    VariantB.getNextDefenderPosition ⟨1, 5⟩ ⟨3, 5⟩ [⟨1, 5⟩] 0 true 0 = ⟨2, 5⟩ :=
  ⟨(claim3_amended ⟨1, 5⟩ ⟨3, 5⟩ [⟨1, 5⟩] 0 (by decide) (by decide)).1,
    (claim3_amended ⟨1, 5⟩ ⟨3, 5⟩ [⟨1, 5⟩] 0 (by decide) (by decide)).2.2.2.1 (by decide),
    (claim3_amended ⟨1, 5⟩ ⟨3, 5⟩ [⟨1, 5⟩] 0 (by decide) (by decide)).2.2.2.2 (by decide)⟩

/-! ### The spec's jitter candidates against the first game's clamped ones -/

theorem VariantA.jitterCandidates_interior {cur : Position}
    (h1 : 0 < cur.row) (h2 : cur.row < 4) (h3 : 0 < cur.col) (h4 : cur.col < 11) :
    jitterCandidates cur = specJitterCandidates ROWS COLS cur := by
  have i1 : inBounds ROWS COLS ⟨cur.row - 1, cur.col⟩ = true := by
    simp only [inBounds, ROWS, COLS, Bool.and_eq_true, decide_eq_true_eq]
    omega
  have i2 : inBounds ROWS COLS ⟨cur.row + 1, cur.col⟩ = true := by
    simp only [inBounds, ROWS, COLS, Bool.and_eq_true, decide_eq_true_eq]
    omega
  have i3 : inBounds ROWS COLS ⟨cur.row, cur.col - 1⟩ = true := by
    simp only [inBounds, ROWS, COLS, Bool.and_eq_true, decide_eq_true_eq]
    omega
  have i4 : inBounds ROWS COLS ⟨cur.row, cur.col + 1⟩ = true := by
    simp only [inBounds, ROWS, COLS, Bool.and_eq_true, decide_eq_true_eq]
    omega
  have e1 : clamp (cur.row - 1) 0 (ROWS - 1) = cur.row - 1 := by
    simp only [clamp, ROWS]; omega
  have e2 : clamp (cur.row + 1) 0 (ROWS - 1) = cur.row + 1 := by
    simp only [clamp, ROWS]; omega
  have e3 : clamp (cur.col - 1) 0 (COLS - 1) = cur.col - 1 := by
    simp only [clamp, COLS]; omega
  have e4 : clamp (cur.col + 1) 0 (COLS - 1) = cur.col + 1 := by
    simp only [clamp, COLS]; omega
  have e5 : clamp cur.row 0 (ROWS - 1) = cur.row := by
    simp only [clamp, ROWS]; omega
  have e6 : clamp cur.col 0 (COLS - 1) = cur.col := by
    simp only [clamp, COLS]; omega
  simp only [jitterCandidates, specJitterCandidates, List.map_cons, List.map_nil,
    List.filter_cons, List.filter_nil, i1, i2, i3, i4, if_true, ite_true, e1, e2, e3,
    e4, e5, e6]

/-- Claim C8 (amended): when jitter mode is drawn, the first `page.tsx` game
builds the four cardinal neighbors each clamped into the grid (for an interior
cell this equals the spec's in-bounds-filtered neighbor set; at the boundary a
clamped neighbor collapses onto the current cell instead of being dropped),
filters them only by defender occupancy, and picks uniformly among the valid
candidates, staying if none is valid. The second game draws a single cardinal
direction uniformly and takes that one step only if it is in bounds and not
occupied by a different defender, otherwise remaining in place. -/
theorem claim8_amended (cur player : Position) (defs : List Position) (index : Nat)
    (pick : Nat) (h1 : 0 < cur.row) (h2 : cur.row < VariantA.ROWS - 1)
    (h3 : 0 < cur.col) (h4 : cur.col < VariantA.COLS - 1) :
    VariantA.jitterCandidates cur = specJitterCandidates VariantA.ROWS VariantA.COLS cur ∧
    (((VariantA.jitterCandidates cur).filter
        (fun c => VariantA.canMoveIntoCell c defs index)) = [] →
      VariantA.getNextDefenderPosition cur player defs index false pick = cur) ∧
    (∀ h : pick < ((VariantA.jitterCandidates cur).filter
        (fun c => VariantA.canMoveIntoCell c defs index)).length,
      VariantA.getNextDefenderPosition cur player defs index false pick =
        ((VariantA.jitterCandidates cur).filter
          (fun c => VariantA.canMoveIntoCell c defs index))[pick]) ∧
    (VariantB.getNextDefenderPosition cur player defs index false pick =
      (if VariantB.validCell defs index
          ⟨cur.row + (VariantB.jitterDirs.getD pick (-1, 0)).1,
           cur.col + (VariantB.jitterDirs.getD pick (-1, 0)).2⟩ = true
        then (⟨cur.row + (VariantB.jitterDirs.getD pick (-1, 0)).1,
               cur.col + (VariantB.jitterDirs.getD pick (-1, 0)).2⟩ : Position)
        else cur)) := by
  have h2' : cur.row < 4 := by simpa [VariantA.ROWS] using h2
  have h4' : cur.col < 11 := by simpa [VariantA.COLS] using h4
  refine ⟨VariantA.jitterCandidates_interior h1 h2' h3 h4', ?_, ?_, ?_⟩
  · intro h
    exact VariantA.getNext_eq_of_empty pick h
  · intro h
    exact VariantA.getNext_eq_get h
  · exact VariantB.getNext_jitter_if cur player defs index pick

/-- Claim C8 witness: the amended jitter behavior evaluated at the interior
cell `(2,5)` with the defender set `[(2,5)]` and draw 0. -/
theorem claim8_witness :
    VariantA.jitterCandidates ⟨2, 5⟩ = specJitterCandidates VariantA.ROWS VariantA.COLS ⟨2, 5⟩ ∧
    VariantA.getNextDefenderPosition ⟨2, 5⟩ ⟨3, 1⟩ [⟨2, 5⟩] 0 false 0 = ⟨1, 5⟩ ∧
    VariantB.getNextDefenderPosition ⟨2, 5⟩ ⟨3, 1⟩ [⟨2, 5⟩] 0 false 0 = ⟨1, 5⟩ := by
  refine ⟨(claim8_amended ⟨2, 5⟩ ⟨3, 1⟩ [⟨2, 5⟩] 0 0 (by decide) (by decide) (by decide)
      (by decide)).1, ?_, ?_⟩
  · have h := (claim8_amended ⟨2, 5⟩ ⟨3, 1⟩ [⟨2, 5⟩] 0 0 (by decide) (by decide) (by decide)
      (by decide)).2.2.1 (by decide)
    rw [h]; decide
  · have h := (claim8_amended ⟨2, 5⟩ ⟨3, 1⟩ [⟨2, 5⟩] 0 0 (by decide) (by decide) (by decide)
      (by decide)).2.2.2
    rw [h]; decide

end EgameFootball
